import Mathlib

/-!
Verification of the update-notifier change-detection pipeline.

The repository source (src/index.js) contains two revisions of the same
program, concatenated: revision 1 (axios + cheerio, recursive retry,
Promise.all aggregation, lines 1-162) and revision 2 (playwright, loop
retry, Promise.allSettled aggregation, lines 163-347).  The change
detector checkIfNewOrUpdated, the truncation helper trimString and the
bucket classification in checkForUpdates are identical in both revisions;
the fetch retry policy and the aggregation of per-URL promises differ and
are embedded separately as V1 and V2.

Shallow-embedding conventions:
- JS strings are Lean String values.
- The filesystem under the contents directory is a map from URL to the
  stored baseline text.  The real key is contents/encodeURIComponent(url).txt;
  encodeURIComponent is injective on strings, so keying directly by URL is
  faithful.  Injected read/write faults model fs.readFile errors whose code
  is not ENOENT and fs.writeFile errors.
- Network behaviour of one URL is an oracle from attempt index to the
  optional snapshot that the attempt produces; exceptions during fetch are
  the none value.
- Thrown JS exceptions are Except.error carrying the message.
- The concurrent fan-out over URLs touches disjoint baseline keys, so it
  is embedded as a sequential left-to-right fold (spec section 5 demands
  order independence between URLs).
-/

set_option autoImplicit false

namespace UpdateNotifier

/-- Snapshot of a page as produced by a successful fetch: visible body text
and the page title (src/index.js lines 46 and 211). -/
structure Snapshot where
  content : String
  title : String
deriving DecidableEq, Repr

/-- Modelled from the spec: one change object of the external diff package
(DiffEngine).  A change carries the text of a contiguous run of lines and
the added/removed flags; a change with both flags false is a context run. -/
structure Change where
  value : String
  added : Bool
  removed : Bool
deriving DecidableEq, Repr

/-- Result object returned by checkIfNewOrUpdated (src/index.js lines
58-84 and 221-247).  Fields that a JS return object may omit (title,
changes) are Options; error defaults to false as in the JS objects. -/
structure CheckResult where
  updated : Bool
  isNew : Bool
  error : Bool := false
  title : Option String := none
  changes : Option (List Change) := none
deriving DecidableEq, Repr

/-- Result of fs.readFile on a baseline file: contents, an error with code
ENOENT, or an error with any other code (src/index.js lines 68-76). -/
inductive ReadResult where
  | found (content : String)
  | enoent
  | ioError (e : String)
deriving DecidableEq, Repr

/-- State of the contents directory plus injected fault behaviour.  files
maps a URL to the baseline stored for it (none when the file is absent);
readFault and writeFault inject fs errors for the given URL: a readFault
is a readFile error whose code differs from ENOENT, a writeFault is a
writeFile error. -/
structure FS where
  files : String → Option String
  readFault : String → Option String
  writeFault : String → Option String

/-- Read of the baseline file contents/encodeURIComponent(url).txt
(src/index.js line 69). -/
def readBaseline (fs : FS) (url : String) : ReadResult :=
  match fs.readFault url with
  | some e => ReadResult.ioError e
  | none =>
    match fs.files url with
    | some c => ReadResult.found c
    | none => ReadResult.enoent

/-- Write of the baseline file (src/index.js line 79); overwrites any
previous contents, fails when a write fault is injected. -/
def writeBaseline (fs : FS) (url : String) (content : String) : Except String FS :=
  match fs.writeFault url with
  | some e => Except.error e
  | none => Except.ok { fs with files := fun u => if u = url then some content else fs.files u }

/-- Fetcher of revision 1 (src/index.js lines 41-56): try the attempt; on
an exception recurse with one retry fewer while retries remain, otherwise
return null.  The oracle gives the outcome of each attempt, indexed from
i; the source calls this with the default retries = 3.  The second
component counts the attempts actually made. -/
def fetchPageContentV1 (oracle : Nat → Option Snapshot) : Nat → Nat → Option Snapshot × Nat
  | 0, i =>
    match oracle i with
    | some s => (some s, 1)
    | none => (none, 1)
  | r + 1, i =>
    match oracle i with
    | some s => (some s, 1)
    | none => ((fetchPageContentV1 oracle r (i + 1)).1, (fetchPageContentV1 oracle r (i + 1)).2 + 1)

/-- Loop body of the fetcher of revision 2 (src/index.js lines 205-219):
for attempt in 0 ..< retries, try; on success return; when the failing
attempt is retries - 1 return null.  Falling out of the loop (possible
only when retries = 0) returns undefined, embedded as none.  fuel is the
number of loop iterations still allowed, retries - attempt at every call;
the recursion is structural on fuel.  The pair again carries the total
number of attempts made. -/
def fetchV2Loop (oracle : Nat → Option Snapshot) (retries : Nat) :
    Nat → Nat → Option Snapshot × Nat
  | 0, attempt => (none, attempt)
  | fuel + 1, attempt =>
    match oracle attempt with
    | some s => (some s, attempt + 1)
    | none =>
      if attempt = retries - 1 then (none, attempt + 1)
      else fetchV2Loop oracle retries fuel (attempt + 1)

/-- Fetcher of revision 2 (src/index.js lines 205-219); the source calls
this with the default retries = 5. -/
def fetchPageContentV2 (oracle : Nat → Option Snapshot) (retries : Nat) :
    Option Snapshot × Nat :=
  fetchV2Loop oracle retries retries 0

/-- Modelled from the spec: the line tokenizer of the external diff
package.  A text is cut into lines, each line keeping its trailing
newline character; the empty text yields no lines.  Worked on the
character list of the string; acc holds the characters of the current
line in reverse. -/
def splitLinesCore : List Char → List Char → List (List Char)
  | [], acc => if acc = [] then [] else [acc.reverse]
  | c :: rest, acc =>
    if c = '\n' then (acc.reverse ++ ['\n']) :: splitLinesCore rest []
    else splitLinesCore rest (c :: acc)

/-- Modelled from the spec: line tokenization at the String level. -/
def splitLines (s : String) : List String :=
  (splitLinesCore s.data []).map String.mk

/-- Concatenation of a list of strings, the inverse of splitLines. -/
def concatStr (ls : List String) : String :=
  ls.foldr (fun a b => a ++ b) ""

/-- Context change holding one line. -/
def mkCommon (v : String) : Change := ⟨v, false, false⟩

/-- Added change holding one line. -/
def mkAdded (v : String) : Change := ⟨v, true, false⟩

/-- Removed change holding one line. -/
def mkRemoved (v : String) : Change := ⟨v, false, true⟩

/-- Number of non-context entries of an edit script; the quantity an
LCS-based diff minimises. -/
def changeCost (cs : List Change) : Nat :=
  (cs.filter (fun c => c.added || c.removed)).length

/-- Modelled from the spec: the per-line edit script of the DiffEngine
(spec section 4.2, a standard line-oriented longest-common-subsequence
diff).  Equal heads are matched as context; otherwise the cheaper of
remove-first and add-first is taken.  fuel bounds the recursion depth and
is at least the sum of the list lengths at every call, so the fuel-out
branch is unreachable from lineScript. -/
def lineScriptF : Nat → List String → List String → List Change
  | _, [], ys => ys.map mkAdded
  | _, x :: xs, [] => (x :: xs).map mkRemoved
  | 0, _ :: _, _ :: _ => []
  | fuel + 1, x :: xs, y :: ys =>
    if x = y then mkCommon x :: lineScriptF fuel xs ys
    else if changeCost (mkRemoved x :: lineScriptF fuel xs (y :: ys)) ≤
            changeCost (mkAdded y :: lineScriptF fuel (x :: xs) ys) then
      mkRemoved x :: lineScriptF fuel xs (y :: ys)
    else
      mkAdded y :: lineScriptF fuel (x :: xs) ys

/-- Modelled from the spec: per-line edit script between two line lists. -/
def lineScript (xs ys : List String) : List Change :=
  lineScriptF (xs.length + ys.length) xs ys

/-- Merge of adjacent script entries of the same kind into one change
whose value is the concatenated text, giving the contiguous hunks that
the diff package returns. -/
def mergeChanges : List Change → List Change
  | [] => []
  | c :: rest =>
    match mergeChanges rest with
    | [] => [c]
    | m :: ms =>
      if c.added = m.added ∧ c.removed = m.removed then
        ⟨c.value ++ m.value, c.added, c.removed⟩ :: ms
      else c :: m :: ms

/-- Modelled from the spec: diffLines of the external diff package as the
spec describes it (section 4.2) — line-oriented LCS diff returning hunks
of contiguous added, removed or context lines. -/
def diffLines (oldStr newStr : String) : List Change :=
  mergeChanges (lineScript (splitLines oldStr) (splitLines newStr))

/-- Old-side lines of an edit script: values of the entries that are not
additions (context and removals), in order. -/
def oldLines (cs : List Change) : List String :=
  (cs.filter (fun c => !c.added)).map (fun c => c.value)

/-- New-side lines of an edit script: values of the entries that are not
removals (context and additions), in order. -/
def newLines (cs : List Change) : List String :=
  (cs.filter (fun c => !c.removed)).map (fun c => c.value)

/-- Old-side text reconstructed from an edit script. -/
def oldText (cs : List Change) : String := concatStr (oldLines cs)

/-- New-side text reconstructed from an edit script. -/
def newText (cs : List Change) : String := concatStr (newLines cs)

/-- Change detector, identical in both revisions (src/index.js lines
58-84 and 221-247).  The fetch step is factored out: pageData is the
value of await fetchPageContent(url).  Returns the result object and the
filesystem after the call, or Except.error for a thrown exception. -/
def checkIfNewOrUpdated (pageData : Option Snapshot) (fs : FS) (url : String) :
    Except String (CheckResult × FS) :=
  match pageData with
  | none => Except.ok ({ updated := false, isNew := false, error := true }, fs)
  | some pd =>
    let newContent := pd.content
    let newTitle := pd.title
    match readBaseline fs url with
    | ReadResult.ioError e => Except.error e
    | readResult =>
      let lastContent := match readResult with | ReadResult.found c => c | _ => ""
      let isNew := match readResult with | ReadResult.enoent => true | _ => false
      if newContent ≠ lastContent then
        match writeBaseline fs url newContent with
        | Except.error e => Except.error e
        | Except.ok fs2 =>
          let changes := (diffLines lastContent newContent).filter (fun c => c.added || c.removed)
          Except.ok ({ updated := true, isNew := isNew, title := some newTitle,
                       changes := some changes }, fs2)
      else
        Except.ok ({ updated := false, isNew := isNew }, fs)

/-- Display truncation (src/index.js lines 86-88 and 249-251); the
callers use the default maxLength = 100. -/
def trimString (str : String) (maxLength : Nat) : String :=
  if str.length > maxLength then (str.take maxLength) ++ "..." else str

/-- Rendering of one change inside the fenced diff block of the update
notification (src/index.js lines 101 and 264). -/
def formatChange (c : Change) : String :=
  if c.added then "+ " ++ trimString c.value 100
  else if c.removed then "- " ++ trimString c.value 100
  else ""

/-- Buckets collected by checkForUpdates: updates entries carry url,
title and changes as pushed on line 145/328, newUrls entries carry url
and title as pushed on line 143/326, errors entries carry the url
(line 141/324). -/
structure Report where
  updates : List (String × Option String × Option (List Change))
  newUrls : List (String × Option String)
  errors : List String
deriving DecidableEq, Repr

/-- Report with all three buckets empty (src/index.js lines 134-136). -/
def emptyReport : Report := ⟨[], [], []⟩

/-- Bucket classification of one URL result (src/index.js lines 140-148
and 323-331): error first, then isNew, then updated, otherwise only a log
line. -/
def addToBuckets (url : String) (result : CheckResult) (rep : Report) : Report :=
  if result.error then { rep with errors := rep.errors ++ [url] }
  else if result.isNew then { rep with newUrls := rep.newUrls ++ [(url, result.title)] }
  else if result.updated then
    { rep with updates := rep.updates ++ [(url, result.title, result.changes)] }
  else rep

/-- Outcome classification of the spec (section 3): the variant the
aggregator's branch order assigns to one result object. -/
inductive Outcome where
  | new (title : Option String)
  | updated (title : Option String) (changes : Option (List Change))
  | unchanged
  | error
deriving DecidableEq, Repr

/-- Outcome denoted by a result object, following the branch order of
checkForUpdates (src/index.js lines 140-148). -/
def classify (r : CheckResult) : Outcome :=
  if r.error then Outcome.error
  else if r.isNew then Outcome.new r.title
  else if r.updated then Outcome.updated r.title r.changes
  else Outcome.unchanged

/-- Aggregation loop of revision 1 (src/index.js lines 138-151): the
per-URL promises are joined with Promise.all, so the first rejected
detection rejects the whole run and no notification is sent; this is
embedded as Except.error of the first thrown error in URL order.  fetch
gives each URL's fetchPageContent outcome. -/
def runV1Aux (fetch : String → Option Snapshot) :
    List String → FS → Report → Except String (Report × FS)
  | [], fs, rep => Except.ok (rep, fs)
  | url :: rest, fs, rep =>
    match checkIfNewOrUpdated (fetch url) fs url with
    | Except.error e => Except.error e
    | Except.ok (r, fs2) => runV1Aux fetch rest fs2 (addToBuckets url r rep)

/-- Run of revision 1 over the URL list (src/index.js lines 131-155). -/
def checkForUpdatesV1 (fetch : String → Option Snapshot) (fs : FS) (urls : List String) :
    Except String (Report × FS) :=
  runV1Aux fetch urls fs emptyReport

/-- Aggregation loop of revision 2 (src/index.js lines 318-334): the
per-URL promises are joined with Promise.allSettled, so a rejected
detection is swallowed — the URL lands in no bucket and the remaining
URLs are still processed.  A throwing detection leaves the filesystem
unchanged (the throw happens at the read, or at the write before
anything is stored). -/
def runV2Aux (fetch : String → Option Snapshot) :
    List String → FS → Report → Report × FS
  | [], fs, rep => (rep, fs)
  | url :: rest, fs, rep =>
    match checkIfNewOrUpdated (fetch url) fs url with
    | Except.error _ => runV2Aux fetch rest fs rep
    | Except.ok (r, fs2) => runV2Aux fetch rest fs2 (addToBuckets url r rep)

/-- Run of revision 2 over the URL list (src/index.js lines 306-340). -/
def checkForUpdatesV2 (fetch : String → Option Snapshot) (fs : FS) (urls : List String) :
    Report × FS :=
  runV2Aux fetch urls fs emptyReport

/-- Filesystem with no baseline files and no injected faults. -/
def fsEmpty : FS := ⟨fun _ => none, fun _ => none, fun _ => none⟩

/-- Fetch behaviour with two URLs that both succeed. -/
def c5Fetch : String → Option Snapshot :=
  fun u => if u = "a" then some ⟨"x", "T"⟩ else if u = "b" then some ⟨"y", "S"⟩ else none

/-- Filesystem where URL a has a stored baseline and a write fault while
URL b is untouched. -/
def c5FS : FS :=
  ⟨fun u => if u = "a" then some "old" else none,
   fun _ => none,
   fun u => if u = "a" then some "EIO" else none⟩

/-- Fetch behaviour failing for the URL bad and succeeding elsewhere. -/
def c5WFetch : String → Option Snapshot :=
  fun u => if u = "bad" then none else some ⟨"x", "T"⟩

/-- Filesystem with a read fault injected for the URL r. -/
def c5RFS : FS :=
  ⟨fun _ => none, fun u => if u = "r" then some "EIO" else none, fun _ => none⟩

/-- Filesystem with a read fault whose code is not ENOENT for URL u. -/
def c10FS : FS :=
  ⟨fun _ => none, fun u => if u = "u" then some "EACCES" else none, fun _ => none⟩

/-- Concatenating splitLinesCore restores the input characters after the
pending accumulator. -/
theorem splitLinesCore_join :
    ∀ (cs acc : List Char), (splitLinesCore cs acc).flatten = acc.reverse ++ cs := by
  intro cs
  induction cs with
  | nil =>
    intro acc
    by_cases h : acc = []
    · simp [splitLinesCore, h]
    · simp [splitLinesCore, h]
  | cons c rest ih =>
    intro acc
    by_cases h : c = '\n'
    · subst h
      simp [splitLinesCore, ih]
    · simp [splitLinesCore, h, ih]

/-- Data of a concatenation of strings. -/
theorem concatStr_data (ls : List String) :
    (concatStr ls).data = (ls.map String.data).flatten := by
  induction ls with
  | nil => rfl
  | cons a l ih =>
    rw [show concatStr (a :: l) = a ++ concatStr l from rfl, String.data_append, ih]
    simp

/-- Tokenizing a string into lines and concatenating them back is the
identity, so distinct strings have distinct line lists. -/
theorem splitLines_concat (s : String) : concatStr (splitLines s) = s := by
  apply String.ext
  rw [concatStr_data]
  unfold splitLines
  rw [List.map_map]
  have : (String.data ∘ String.mk) = id := by
    funext l
    rfl
  rw [this, List.map_id, splitLinesCore_join]
  rfl

/-- Tokenization of the empty text. -/
theorem splitLines_empty : splitLines "" = [] := rfl

/-- Old-side lines drop an added entry. -/
theorem oldLines_cons_added {c : Change} (cs : List Change) (h : c.added = true) :
    oldLines (c :: cs) = oldLines cs := by
  simp [oldLines, List.filter_cons, h]

/-- Old-side lines keep a non-added entry. -/
theorem oldLines_cons_kept {c : Change} (cs : List Change) (h : c.added = false) :
    oldLines (c :: cs) = c.value :: oldLines cs := by
  simp [oldLines, List.filter_cons, h]

/-- New-side lines drop a removed entry. -/
theorem newLines_cons_removed {c : Change} (cs : List Change) (h : c.removed = true) :
    newLines (c :: cs) = newLines cs := by
  simp [newLines, List.filter_cons, h]

/-- New-side lines keep a non-removed entry. -/
theorem newLines_cons_kept {c : Change} (cs : List Change) (h : c.removed = false) :
    newLines (c :: cs) = c.value :: newLines cs := by
  simp [newLines, List.filter_cons, h]

/-- Old-side text of a cons. -/
theorem oldText_cons (c : Change) (cs : List Change) :
    oldText (c :: cs) = (if c.added = true then "" else c.value) ++ oldText cs := by
  unfold oldText
  cases h : c.added
  · rw [oldLines_cons_kept cs h]
    simp [concatStr]
  · rw [oldLines_cons_added cs h]
    simp [String.empty_append]

/-- New-side text of a cons. -/
theorem newText_cons (c : Change) (cs : List Change) :
    newText (c :: cs) = (if c.removed = true then "" else c.value) ++ newText cs := by
  unfold newText
  cases h : c.removed
  · rw [newLines_cons_kept cs h]
    simp [concatStr]
  · rw [newLines_cons_removed cs h]
    simp [String.empty_append]

/-- Old side of an all-added script is empty. -/
theorem oldLines_map_mkAdded (ys : List String) : oldLines (ys.map mkAdded) = [] := by
  induction ys with
  | nil => rfl
  | cons y l ih => rw [List.map_cons, oldLines_cons_added _ rfl, ih]

/-- New side of an all-added script is the added lines. -/
theorem newLines_map_mkAdded (ys : List String) : newLines (ys.map mkAdded) = ys := by
  induction ys with
  | nil => rfl
  | cons y l ih =>
    rw [List.map_cons, newLines_cons_kept _ rfl, ih]
    rfl

/-- Old side of an all-removed script is the removed lines. -/
theorem oldLines_map_mkRemoved (xs : List String) : oldLines (xs.map mkRemoved) = xs := by
  induction xs with
  | nil => rfl
  | cons x l ih =>
    rw [List.map_cons, oldLines_cons_kept _ rfl, ih]
    rfl

/-- New side of an all-removed script is empty. -/
theorem newLines_map_mkRemoved (xs : List String) : newLines (xs.map mkRemoved) = [] := by
  induction xs with
  | nil => rfl
  | cons x l ih => rw [List.map_cons, newLines_cons_removed _ rfl, ih]

/-- Reconstruction invariant of the per-line edit script: its old-side
lines are exactly the old input and its new-side lines exactly the new
input, for every sufficient fuel. -/
theorem lineScriptF_reconstruct :
    ∀ (fuel : Nat) (xs ys : List String), xs.length + ys.length ≤ fuel →
      oldLines (lineScriptF fuel xs ys) = xs ∧ newLines (lineScriptF fuel xs ys) = ys := by
  intro fuel
  induction fuel with
  | zero =>
    intro xs ys h
    have hx : xs = [] := by
      cases xs with
      | nil => rfl
      | cons a l => simp at h
    have hy : ys = [] := by
      cases ys with
      | nil => rfl
      | cons a l => simp at h
    subst hx; subst hy
    exact ⟨rfl, rfl⟩
  | succ fuel ih =>
    intro xs ys h
    cases xs with
    | nil =>
      simp [lineScriptF, oldLines_map_mkAdded, newLines_map_mkAdded]
    | cons x xs =>
      cases ys with
      | nil =>
        constructor
        · rw [show lineScriptF (fuel + 1) (x :: xs) [] = (x :: xs).map mkRemoved from rfl]
          exact oldLines_map_mkRemoved _
        · rw [show lineScriptF (fuel + 1) (x :: xs) [] = (x :: xs).map mkRemoved from rfl]
          exact newLines_map_mkRemoved _
      | cons y ys =>
        by_cases hxy : x = y
        · subst hxy
          have hlen : xs.length + ys.length ≤ fuel := by
            simp at h
            omega
          have hrec := ih xs ys hlen
          rw [show lineScriptF (fuel + 1) (x :: xs) (x :: ys) =
                mkCommon x :: lineScriptF fuel xs ys from by simp [lineScriptF]]
          constructor
          · rw [oldLines_cons_kept _ rfl, hrec.1]
            rfl
          · rw [newLines_cons_kept _ rfl, hrec.2]
            rfl
        · have hlen1 : xs.length + (y :: ys).length ≤ fuel := by
            simp at h ⊢
            omega
          have hlen2 : (x :: xs).length + ys.length ≤ fuel := by
            simp at h ⊢
            omega
          have hrec1 := ih xs (y :: ys) hlen1
          have hrec2 := ih (x :: xs) ys hlen2
          rw [show lineScriptF (fuel + 1) (x :: xs) (y :: ys) =
                (if changeCost (mkRemoved x :: lineScriptF fuel xs (y :: ys)) ≤
                    changeCost (mkAdded y :: lineScriptF fuel (x :: xs) ys) then
                  mkRemoved x :: lineScriptF fuel xs (y :: ys)
                else mkAdded y :: lineScriptF fuel (x :: xs) ys) from by
              simp [lineScriptF, hxy]]
          by_cases hc : changeCost (mkRemoved x :: lineScriptF fuel xs (y :: ys)) ≤
              changeCost (mkAdded y :: lineScriptF fuel (x :: xs) ys)
          · rw [if_pos hc]
            constructor
            · rw [oldLines_cons_kept _ rfl, hrec1.1]
              rfl
            · rw [newLines_cons_removed _ rfl, hrec1.2]
          · rw [if_neg hc]
            constructor
            · rw [oldLines_cons_added _ rfl, hrec2.1]
            · rw [newLines_cons_kept _ rfl, hrec2.2]
              rfl

/-- The edit script of a list against itself is all context. -/
theorem lineScriptF_self :
    ∀ (fuel : Nat) (xs : List String), xs.length + xs.length ≤ fuel →
      lineScriptF fuel xs xs = xs.map mkCommon := by
  intro fuel
  induction fuel with
  | zero =>
    intro xs h
    cases xs with
    | nil => rfl
    | cons a l => simp at h
  | succ fuel ih =>
    intro xs h
    cases xs with
    | nil => rfl
    | cons x xs =>
      rw [show lineScriptF (fuel + 1) (x :: xs) (x :: xs) =
            mkCommon x :: lineScriptF fuel xs xs from by simp [lineScriptF]]
      rw [List.map_cons, ih xs (by simp at h; omega)]

/-- Unfolding of mergeChanges on a cons cell. -/
theorem mergeChanges_cons_nil (c : Change) (rest : List Change)
    (hm : mergeChanges rest = []) : mergeChanges (c :: rest) = [c] := by
  unfold mergeChanges
  rw [hm]

/-- Unfolding of mergeChanges on a cons cell whose tail merges to a cons. -/
theorem mergeChanges_cons_cons (c : Change) (rest : List Change) (m : Change)
    (ms : List Change) (hm : mergeChanges rest = m :: ms) :
    mergeChanges (c :: rest) =
      if c.added = m.added ∧ c.removed = m.removed then
        (⟨c.value ++ m.value, c.added, c.removed⟩ : Change) :: ms
      else c :: m :: ms := by
  unfold mergeChanges
  rw [hm]

/-- Merging never turns a non-empty script into an empty one. -/
theorem mergeChanges_ne_nil (c : Change) (cs : List Change) :
    mergeChanges (c :: cs) ≠ [] := by
  cases hm : mergeChanges cs with
  | nil => rw [mergeChanges_cons_nil c cs hm]; simp
  | cons m ms =>
    rw [mergeChanges_cons_cons c cs m ms hm]
    by_cases h : c.added = m.added ∧ c.removed = m.removed
    · simp [h]
    · simp [h]

/-- Merging preserves the old-side text of a script. -/
theorem mergeChanges_oldText (cs : List Change) :
    oldText (mergeChanges cs) = oldText cs := by
  induction cs with
  | nil => rfl
  | cons c rest ih =>
    cases hm : mergeChanges rest with
    | nil =>
      cases rest with
      | nil => rfl
      | cons d l => exact absurd hm (mergeChanges_ne_nil d l)
    | cons m ms =>
      rw [hm] at ih
      rw [mergeChanges_cons_cons c rest m ms hm]
      by_cases hk : c.added = m.added ∧ c.removed = m.removed
      · rw [if_pos hk]
        rw [oldText_cons, oldText_cons c rest, ← ih, oldText_cons m ms]
        cases ha : c.added
        · have hma : m.added = false := by rw [← hk.1, ha]
          rw [ha] at hk
          simp only [ha, hma]
          rw [if_neg (by simp), if_neg (by simp), if_neg (by simp),
            String.append_assoc]
        · have hma : m.added = true := by rw [← hk.1, ha]
          simp only [ha, hma]
          simp [String.empty_append]
      · rw [if_neg hk]
        rw [oldText_cons c (m :: ms), oldText_cons c rest, ih]

/-- Merging preserves the new-side text of a script. -/
theorem mergeChanges_newText (cs : List Change) :
    newText (mergeChanges cs) = newText cs := by
  induction cs with
  | nil => rfl
  | cons c rest ih =>
    cases hm : mergeChanges rest with
    | nil =>
      cases rest with
      | nil => rfl
      | cons d l => exact absurd hm (mergeChanges_ne_nil d l)
    | cons m ms =>
      rw [hm] at ih
      rw [mergeChanges_cons_cons c rest m ms hm]
      by_cases hk : c.added = m.added ∧ c.removed = m.removed
      · rw [if_pos hk]
        rw [newText_cons, newText_cons c rest, ← ih, newText_cons m ms]
        cases hr : c.removed
        · have hmr : m.removed = false := by rw [← hk.2, hr]
          simp only [hr, hmr]
          rw [if_neg (by simp), if_neg (by simp), if_neg (by simp),
            String.append_assoc]
        · have hmr : m.removed = true := by rw [← hk.2, hr]
          simp only [hr, hmr]
          simp [String.empty_append]
      · rw [if_neg hk]
        rw [newText_cons c (m :: ms), newText_cons c rest, ih]

/-- Merging preserves every property of the entries that is closed under
concatenating two entries of the same kind into one. -/
theorem mergeChanges_mem {p : Change → Prop}
    (hclosed : ∀ a b : Change, p a → p b → p ⟨a.value ++ b.value, a.added, a.removed⟩) :
    ∀ cs : List Change, (∀ c ∈ cs, p c) → ∀ c ∈ mergeChanges cs, p c := by
  intro cs
  induction cs with
  | nil =>
    intro _ c hc
    simp [mergeChanges] at hc
  | cons d rest ih =>
    intro hall c hc
    cases hm : mergeChanges rest with
    | nil =>
      rw [mergeChanges_cons_nil d rest hm] at hc
      simp at hc
      subst hc
      exact hall _ (List.mem_cons_self _ _)
    | cons m ms =>
      rw [mergeChanges_cons_cons d rest m ms hm] at hc
      have hmem : ∀ x ∈ m :: ms, p x := by
        rw [← hm]
        exact ih (fun x hx => hall x (by simp [hx]))
      by_cases hk : d.added = m.added ∧ d.removed = m.removed
      · rw [if_pos hk] at hc
        rcases List.mem_cons.mp hc with h | h
        · subst h
          exact hclosed d m (hall d (by simp)) (hmem m (by simp))
        · exact hmem c (by simp [h])
      · rw [if_neg hk] at hc
        rcases List.mem_cons.mp hc with h | h
        · subst h
          exact hall c (by simp)
        · exact hmem c h

/-- A script with no added and no removed entry has equal old-side and
new-side text. -/
theorem filter_nil_text_eq :
    ∀ cs : List Change, cs.filter (fun c => c.added || c.removed) = [] →
      oldText cs = newText cs := by
  intro cs
  induction cs with
  | nil => intro _; rfl
  | cons c rest ih =>
    intro h
    rw [List.filter_cons] at h
    by_cases hc : (c.added || c.removed) = true
    · simp [hc] at h
    · have ha : c.added = false := by
        cases hcad : c.added
        · rfl
        · rw [hcad] at hc; simp at hc
      have hr : c.removed = false := by
        cases hcr : c.removed
        · rfl
        · rw [hcr] at hc; simp at hc
      simp only [hc, if_false] at h
      rw [oldText_cons, newText_cons, ha, hr]
      rw [ih (by simpa using h)]

/-- Old-side text of the merged diff is the old input string. -/
theorem diffLines_oldText (oldStr newStr : String) :
    oldText (diffLines oldStr newStr) = oldStr := by
  unfold diffLines lineScript
  rw [mergeChanges_oldText]
  unfold oldText
  rw [(lineScriptF_reconstruct _ _ _ (le_refl _)).1]
  exact splitLines_concat oldStr

/-- New-side text of the merged diff is the new input string. -/
theorem diffLines_newText (oldStr newStr : String) :
    newText (diffLines oldStr newStr) = newStr := by
  unfold diffLines lineScript
  rw [mergeChanges_newText]
  unfold newText
  rw [(lineScriptF_reconstruct _ _ _ (le_refl _)).2]
  exact splitLines_concat newStr

/-- Every change of the diff of a string against itself is context. -/
theorem diffLines_self_context (s : String) :
    ∀ c ∈ diffLines s s, c.added = false ∧ c.removed = false := by
  unfold diffLines lineScript
  rw [lineScriptF_self _ _ (le_refl _)]
  refine mergeChanges_mem ?_ _ ?_
  · intro a b ha _
    exact ⟨ha.1, ha.2⟩
  · intro c hc
    rcases List.mem_map.mp hc with ⟨v, _, hv⟩
    subst hv
    exact ⟨rfl, rfl⟩

/-- Every change of the diff against an empty old string is an addition. -/
theorem diffLines_empty_all_added (newStr : String) :
    ∀ c ∈ diffLines "" newStr, c.added = true ∧ c.removed = false := by
  unfold diffLines lineScript
  rw [splitLines_empty]
  rw [show lineScriptF (List.length [] + (splitLines newStr).length) []
        (splitLines newStr) = (splitLines newStr).map mkAdded from by
      cases splitLines newStr <;> rfl]
  refine mergeChanges_mem ?_ _ ?_
  · intro a b ha _
    exact ⟨ha.1, ha.2⟩
  · intro c hc
    rcases List.mem_map.mp hc with ⟨v, _, hv⟩
    subst hv
    exact ⟨rfl, rfl⟩

/-- The values of a script with no removed entry concatenate to its
new-side text. -/
theorem values_concat_of_no_removed :
    ∀ cs : List Change, (∀ c ∈ cs, c.removed = false) →
      concatStr (cs.map (fun c => c.value)) = newText cs := by
  intro cs
  induction cs with
  | nil => intro _; rfl
  | cons c rest ih =>
    intro h
    rw [List.map_cons, newText_cons, h c (by simp)]
    rw [if_neg (by simp)]
    rw [show concatStr (c.value :: rest.map (fun c => c.value)) =
          c.value ++ concatStr (rest.map (fun c => c.value)) from rfl]
    rw [ih (fun x hx => h x (by simp [hx]))]

/-- Baseline read when no fault and no file are present for the URL. -/
theorem readBaseline_enoent {fs : FS} {url : String}
    (h1 : fs.readFault url = none) (h2 : fs.files url = none) :
    readBaseline fs url = ReadResult.enoent := by
  unfold readBaseline
  rw [h1, h2]

/-- Baseline read when no fault is present and a file is stored. -/
theorem readBaseline_found {fs : FS} {url : String} {c : String}
    (h1 : fs.readFault url = none) (h2 : fs.files url = some c) :
    readBaseline fs url = ReadResult.found c := by
  unfold readBaseline
  rw [h1, h2]

/-- Baseline read when a read fault is injected for the URL. -/
theorem readBaseline_ioError {fs : FS} {url : String} {e : String}
    (h1 : fs.readFault url = some e) :
    readBaseline fs url = ReadResult.ioError e := by
  unfold readBaseline
  rw [h1]

/-- Baseline write when no write fault is injected for the URL. -/
theorem writeBaseline_ok {fs : FS} {url : String} (content : String)
    (h : fs.writeFault url = none) :
    writeBaseline fs url content =
      Except.ok { fs with files := fun u => if u = url then some content else fs.files u } := by
  unfold writeBaseline
  rw [h]

/-- Detection with a failed fetch: the error result object is returned at
once and the filesystem is neither read nor written (the outcome is the
same for every filesystem, faults included, and the returned state is the
input state). -/
theorem checkIfNewOrUpdated_none (fs : FS) (url : String) :
    checkIfNewOrUpdated none fs url =
      Except.ok ({ updated := false, isNew := false, error := true }, fs) := rfl

/-- Detection rethrows a baseline read error whose code is not ENOENT. -/
theorem checkIfNewOrUpdated_ioError {fs : FS} {url : String} {e : String} (pd : Snapshot)
    (h : readBaseline fs url = ReadResult.ioError e) :
    checkIfNewOrUpdated (some pd) fs url = Except.error e := by
  unfold checkIfNewOrUpdated
  rw [h]

/-- Detection after a read that signals ENOENT: isNew is set and the
fetched content is compared against the initial empty lastContent. -/
theorem checkIfNewOrUpdated_enoent {fs : FS} {url : String} (pd : Snapshot)
    (h : readBaseline fs url = ReadResult.enoent) :
    checkIfNewOrUpdated (some pd) fs url =
      if pd.content ≠ "" then
        match writeBaseline fs url pd.content with
        | Except.error e => Except.error e
        | Except.ok fs2 =>
          Except.ok ({ updated := true, isNew := true, title := some pd.title,
                       changes := some ((diffLines "" pd.content).filter
                         (fun c => c.added || c.removed)) }, fs2)
      else Except.ok ({ updated := false, isNew := true }, fs) := by
  unfold checkIfNewOrUpdated
  rw [h]

/-- Detection after a successful read of the stored baseline. -/
theorem checkIfNewOrUpdated_found {fs : FS} {url : String} {c : String} (pd : Snapshot)
    (h : readBaseline fs url = ReadResult.found c) :
    checkIfNewOrUpdated (some pd) fs url =
      if pd.content ≠ c then
        match writeBaseline fs url pd.content with
        | Except.error e => Except.error e
        | Except.ok fs2 =>
          Except.ok ({ updated := true, isNew := false, title := some pd.title,
                       changes := some ((diffLines c pd.content).filter
                         (fun ch => ch.added || ch.removed)) }, fs2)
      else Except.ok ({ updated := false, isNew := false }, fs) := by
  unfold checkIfNewOrUpdated
  rw [h]

/-- A detection that returns normally never carries the error flag: the
flag is set only on the fetch-failure path. -/
theorem checkIfNewOrUpdated_some_error_false {pd : Snapshot} {fs fs2 : FS} {url : String}
    {r : CheckResult} (h : checkIfNewOrUpdated (some pd) fs url = Except.ok (r, fs2)) :
    r.error = false := by
  cases hrb : readBaseline fs url with
  | ioError e =>
    rw [checkIfNewOrUpdated_ioError pd hrb] at h
    exact absurd h (by simp)
  | enoent =>
    rw [checkIfNewOrUpdated_enoent pd hrb] at h
    by_cases hne : pd.content ≠ ""
    · rw [if_pos hne] at h
      cases hw : writeBaseline fs url pd.content with
      | error e =>
        rw [hw] at h
        exact absurd h (by simp)
      | ok fsw =>
        rw [hw] at h
        simp only [Except.ok.injEq, Prod.mk.injEq] at h
        rw [← h.1]
    · rw [if_neg hne] at h
      simp only [Except.ok.injEq, Prod.mk.injEq] at h
      rw [← h.1]
  | found c =>
    rw [checkIfNewOrUpdated_found pd hrb] at h
    by_cases hne : pd.content ≠ c
    · rw [if_pos hne] at h
      cases hw : writeBaseline fs url pd.content with
      | error e =>
        rw [hw] at h
        exact absurd h (by simp)
      | ok fsw =>
        rw [hw] at h
        simp only [Except.ok.injEq, Prod.mk.injEq] at h
        rw [← h.1]
    · rw [if_neg hne] at h
      simp only [Except.ok.injEq, Prod.mk.injEq] at h
      rw [← h.1]

/-- A returning detection changes neither the injected faults nor any
baseline file of another URL. -/
theorem checkIfNewOrUpdated_preserves {pd : Option Snapshot} {fs fs2 : FS} {url : String}
    {r : CheckResult} (h : checkIfNewOrUpdated pd fs url = Except.ok (r, fs2)) :
    fs2.readFault = fs.readFault ∧ fs2.writeFault = fs.writeFault ∧
      ∀ u, u ≠ url → fs2.files u = fs.files u := by
  have hfsw : ∀ fsw : FS,
      writeBaseline fs url (match pd with | some s => s.content | none => "") = Except.ok fsw →
      fsw.readFault = fs.readFault ∧ fsw.writeFault = fs.writeFault ∧
        ∀ u, u ≠ url → fsw.files u = fs.files u := by
    intro fsw hw
    unfold writeBaseline at hw
    cases hwf : fs.writeFault url with
    | some e => rw [hwf] at hw; exact absurd hw (by simp)
    | none =>
      rw [hwf] at hw
      simp only [Except.ok.injEq] at hw
      subst hw
      refine ⟨rfl, rfl, ?_⟩
      intro u hu
      simp [hu]
  cases pd with
  | none =>
    rw [checkIfNewOrUpdated_none] at h
    simp only [Except.ok.injEq, Prod.mk.injEq] at h
    rw [← h.2]
    exact ⟨rfl, rfl, fun u _ => rfl⟩
  | some pd =>
    cases hrb : readBaseline fs url with
    | ioError e =>
      rw [checkIfNewOrUpdated_ioError pd hrb] at h
      exact absurd h (by simp)
    | enoent =>
      rw [checkIfNewOrUpdated_enoent pd hrb] at h
      by_cases hne : pd.content ≠ ""
      · rw [if_pos hne] at h
        cases hw : writeBaseline fs url pd.content with
        | error e =>
          rw [hw] at h
          exact absurd h (by simp)
        | ok fsw =>
          rw [hw] at h
          simp only [Except.ok.injEq, Prod.mk.injEq] at h
          rw [← h.2]
          exact hfsw fsw hw
      · rw [if_neg hne] at h
        simp only [Except.ok.injEq, Prod.mk.injEq] at h
        rw [← h.2]
        exact ⟨rfl, rfl, fun u _ => rfl⟩
    | found c =>
      rw [checkIfNewOrUpdated_found pd hrb] at h
      by_cases hne : pd.content ≠ c
      · rw [if_pos hne] at h
        cases hw : writeBaseline fs url pd.content with
        | error e =>
          rw [hw] at h
          exact absurd h (by simp)
        | ok fsw =>
          rw [hw] at h
          simp only [Except.ok.injEq, Prod.mk.injEq] at h
          rw [← h.2]
          exact hfsw fsw hw
      · rw [if_neg hne] at h
        simp only [Except.ok.injEq, Prod.mk.injEq] at h
        rw [← h.2]
        exact ⟨rfl, rfl, fun u _ => rfl⟩

/-- A detection for a URL without injected faults always returns
normally: throws come only from injected read and write faults. -/
theorem checkIfNewOrUpdated_no_fault_ok {fs : FS} {url : String} (pd : Option Snapshot)
    (hr : fs.readFault url = none) (hw : fs.writeFault url = none) :
    ∃ r fs2, checkIfNewOrUpdated pd fs url = Except.ok (r, fs2) := by
  cases pd with
  | none => exact ⟨_, _, rfl⟩
  | some pd =>
    cases hf : fs.files url with
    | none =>
      rw [checkIfNewOrUpdated_enoent pd (readBaseline_enoent hr hf)]
      by_cases hne : pd.content ≠ ""
      · rw [if_pos hne, writeBaseline_ok _ hw]
        exact ⟨_, _, rfl⟩
      · rw [if_neg hne]
        exact ⟨_, _, rfl⟩
    | some c =>
      rw [checkIfNewOrUpdated_found pd (readBaseline_found hr hf)]
      by_cases hne : pd.content ≠ c
      · rw [if_pos hne, writeBaseline_ok _ hw]
        exact ⟨_, _, rfl⟩
      · rw [if_neg hne]
        exact ⟨_, _, rfl⟩

/-- A result carrying the error flag goes to the errors bucket. -/
theorem addToBuckets_error {url : String} {r : CheckResult} {rep : Report}
    (h : r.error = true) :
    addToBuckets url r rep = { rep with errors := rep.errors ++ [url] } := by
  unfold addToBuckets
  rw [h]
  simp

/-- A result without the error flag never touches the errors bucket. -/
theorem addToBuckets_errors_of_not_error {url : String} {r : CheckResult} {rep : Report}
    (h : r.error = false) :
    (addToBuckets url r rep).errors = rep.errors := by
  unfold addToBuckets
  rw [h]
  simp only [Bool.false_eq_true, if_false]
  by_cases hn : r.isNew = true
  · rw [if_pos hn]
  · rw [if_neg hn]
    by_cases hu : r.updated = true
    · rw [if_pos hu]
    · rw [if_neg hu]

/-- One step of the revision-2 aggregation on a cons cell. -/
theorem runV2Aux_cons (fetch : String → Option Snapshot) (url : String) (rest : List String)
    (fs : FS) (rep : Report) :
    runV2Aux fetch (url :: rest) fs rep =
      match checkIfNewOrUpdated (fetch url) fs url with
      | Except.error _ => runV2Aux fetch rest fs rep
      | Except.ok (r, fs2) => runV2Aux fetch rest fs2 (addToBuckets url r rep) := rfl

/-- Revision-2 aggregation step for a returning detection. -/
theorem runV2Aux_cons_ok {fetch : String → Option Snapshot} {url : String} {fs fs2 : FS}
    {r : CheckResult} (rest : List String) (rep : Report)
    (hd : checkIfNewOrUpdated (fetch url) fs url = Except.ok (r, fs2)) :
    runV2Aux fetch (url :: rest) fs rep = runV2Aux fetch rest fs2 (addToBuckets url r rep) := by
  rw [runV2Aux_cons, hd]

/-- Revision-2 aggregation step for a throwing detection: the URL is
dropped and the filesystem is carried on unchanged. -/
theorem runV2Aux_cons_error {fetch : String → Option Snapshot} {url : String} {fs : FS}
    {e : String} (rest : List String) (rep : Report)
    (hd : checkIfNewOrUpdated (fetch url) fs url = Except.error e) :
    runV2Aux fetch (url :: rest) fs rep = runV2Aux fetch rest fs rep := by
  rw [runV2Aux_cons, hd]

/-- One step of the revision-1 aggregation on a cons cell. -/
theorem runV1Aux_cons (fetch : String → Option Snapshot) (url : String) (rest : List String)
    (fs : FS) (rep : Report) :
    runV1Aux fetch (url :: rest) fs rep =
      match checkIfNewOrUpdated (fetch url) fs url with
      | Except.error e => Except.error e
      | Except.ok (r, fs2) => runV1Aux fetch rest fs2 (addToBuckets url r rep) := rfl

/-- Revision-1 aggregation step for a returning detection. -/
theorem runV1Aux_cons_ok {fetch : String → Option Snapshot} {url : String} {fs fs2 : FS}
    {r : CheckResult} (rest : List String) (rep : Report)
    (hd : checkIfNewOrUpdated (fetch url) fs url = Except.ok (r, fs2)) :
    runV1Aux fetch (url :: rest) fs rep = runV1Aux fetch rest fs2 (addToBuckets url r rep) := by
  rw [runV1Aux_cons, hd]

/-- Revision-1 aggregation step for a throwing detection: the whole run
rejects. -/
theorem runV1Aux_cons_error {fetch : String → Option Snapshot} {url : String} {fs : FS}
    {e : String} (rest : List String) (rep : Report)
    (hd : checkIfNewOrUpdated (fetch url) fs url = Except.error e) :
    runV1Aux fetch (url :: rest) fs rep = Except.error e := by
  rw [runV1Aux_cons, hd]

/-- The errors bucket of a revision-2 run collects exactly the URLs whose
fetch failed, in input order, after any errors already accumulated:
rethrown storage errors land in no bucket and successful detections land
elsewhere. -/
theorem runV2Aux_errors (fetch : String → Option Snapshot) :
    ∀ (urls : List String) (fs : FS) (rep : Report),
      (runV2Aux fetch urls fs rep).1.errors =
        rep.errors ++ urls.filter (fun u => (fetch u).isNone) := by
  intro urls
  induction urls with
  | nil =>
    intro fs rep
    simp [runV2Aux]
  | cons url rest ih =>
    intro fs rep
    cases hf : fetch url with
    | none =>
      rw [runV2Aux_cons_ok rest rep (by rw [hf, checkIfNewOrUpdated_none])]
      rw [ih, addToBuckets_error rfl]
      simp [List.filter_cons, hf]
    | some pd =>
      cases hd : checkIfNewOrUpdated (some pd) fs url with
      | error e =>
        rw [runV2Aux_cons_error rest rep (by rw [hf]; exact hd)]
        rw [ih]
        simp [List.filter_cons, hf]
      | ok p =>
        obtain ⟨r, fs2⟩ := p
        rw [runV2Aux_cons_ok rest rep (by rw [hf]; exact hd)]
        rw [ih, addToBuckets_errors_of_not_error (checkIfNewOrUpdated_some_error_false hd)]
        simp [List.filter_cons, hf]

/-- When no URL of the list carries an injected fault, the revision-1
aggregation (Promise.all) returns normally and agrees with the revision-2
aggregation (Promise.allSettled). -/
theorem runAux_agree (fetch : String → Option Snapshot) :
    ∀ (urls : List String) (fs : FS) (rep : Report),
      (∀ u ∈ urls, fs.readFault u = none ∧ fs.writeFault u = none) →
      runV1Aux fetch urls fs rep = Except.ok (runV2Aux fetch urls fs rep) := by
  intro urls
  induction urls with
  | nil =>
    intro fs rep _
    rfl
  | cons url rest ih =>
    intro fs rep h
    obtain ⟨r, fs2, hd⟩ :=
      checkIfNewOrUpdated_no_fault_ok (fetch url) (h url (by simp)).1 (h url (by simp)).2
    have hpres := checkIfNewOrUpdated_preserves hd
    rw [runV1Aux_cons_ok rest rep hd, runV2Aux_cons_ok rest rep hd]
    apply ih
    intro u hu
    rw [hpres.1, hpres.2.1]
    exact h u (by simp [hu])

/-- The revision-1 fetcher makes at most retries + 1 attempts. -/
theorem fetchPageContentV1_attempts_le (oracle : Nat → Option Snapshot) :
    ∀ (retries i : Nat), (fetchPageContentV1 oracle retries i).2 ≤ retries + 1 := by
  intro retries
  induction retries with
  | zero =>
    intro i
    unfold fetchPageContentV1
    cases oracle i <;> simp
  | succ r ih =>
    intro i
    unfold fetchPageContentV1
    cases oracle i with
    | none =>
      have := ih (i + 1)
      simp
      omega
    | some s => simp

/-- The revision-1 fetcher returns the snapshot of the first successful
attempt, making exactly the attempts up to it, whenever that attempt is
within the budget of retries + 1 tries. -/
theorem fetchPageContentV1_success (oracle : Nat → Option Snapshot) :
    ∀ (k retries i : Nat) (s : Snapshot), k ≤ retries → oracle (i + k) = some s →
      (∀ j, j < k → oracle (i + j) = none) →
      fetchPageContentV1 oracle retries i = (some s, k + 1) := by
  intro k
  induction k with
  | zero =>
    intro retries i s _ hk _
    rw [show i + 0 = i from rfl] at hk
    cases retries with
    | zero => unfold fetchPageContentV1; rw [hk]
    | succ r => unfold fetchPageContentV1; rw [hk]
  | succ k ih =>
    intro retries i s hle hk hfail
    have hi : oracle i = none := by
      have := hfail 0 (by omega)
      simpa using this
    cases retries with
    | zero => omega
    | succ r =>
      unfold fetchPageContentV1
      rw [hi]
      have hrec : fetchPageContentV1 oracle r (i + 1) = (some s, k + 1) := by
        apply ih r (i + 1) s (by omega)
        · rw [show i + 1 + k = i + (k + 1) from by omega]
          exact hk
        · intro j hj
          rw [show i + 1 + j = i + (j + 1) from by omega]
          exact hfail (j + 1) (by omega)
      rw [hrec]

/-- The revision-1 fetcher signals null only after all retries + 1
attempts failed, and it makes exactly those attempts. -/
theorem fetchPageContentV1_exhaust (oracle : Nat → Option Snapshot) :
    ∀ (retries i : Nat), (∀ j, j ≤ retries → oracle (i + j) = none) →
      fetchPageContentV1 oracle retries i = (none, retries + 1) := by
  intro retries
  induction retries with
  | zero =>
    intro i h
    unfold fetchPageContentV1
    rw [show oracle i = none from by simpa using h 0 (by omega)]
  | succ r ih =>
    intro i h
    unfold fetchPageContentV1
    rw [show oracle i = none from by simpa using h 0 (by omega)]
    have hrec : fetchPageContentV1 oracle r (i + 1) = (none, r + 1) := by
      apply ih
      intro j hj
      rw [show i + 1 + j = i + (j + 1) from by omega]
      exact h (j + 1) (by omega)
    rw [hrec]

/-- The revision-2 fetch loop never exceeds retries total attempts. -/
theorem fetchV2Loop_attempts_le (oracle : Nat → Option Snapshot) (retries : Nat) :
    ∀ (fuel attempt : Nat), attempt + fuel ≤ retries →
      (fetchV2Loop oracle retries fuel attempt).2 ≤ retries := by
  intro fuel
  induction fuel with
  | zero =>
    intro attempt h
    unfold fetchV2Loop
    omega
  | succ fuel ih =>
    intro attempt h
    unfold fetchV2Loop
    cases oracle attempt with
    | some s => simp; omega
    | none =>
      by_cases ha : attempt = retries - 1
      · rw [if_pos ha]
        simp
        omega
      · rw [if_neg ha]
        exact ih (attempt + 1) (by omega)

/-- The revision-2 fetch loop returns the first success that lies at an
attempt index strictly below retries, counting exactly the attempts made
up to it. -/
theorem fetchV2Loop_success (oracle : Nat → Option Snapshot) (retries k : Nat)
    (s : Snapshot) (hk : k < retries) (hs : oracle k = some s)
    (hfail : ∀ j, j < k → oracle j = none) :
    ∀ (fuel attempt : Nat), attempt + fuel = retries → attempt ≤ k →
      fetchV2Loop oracle retries fuel attempt = (some s, k + 1) := by
  intro fuel
  induction fuel with
  | zero =>
    intro attempt hinv hak
    omega
  | succ fuel ih =>
    intro attempt hinv hak
    unfold fetchV2Loop
    by_cases hek : attempt = k
    · subst hek
      rw [hs]
    · have hlt : attempt < k := by omega
      rw [hfail attempt hlt]
      have hne : attempt ≠ retries - 1 := by omega
      rw [if_neg hne]
      exact ih (attempt + 1) (by omega) (by omega)

/-- The revision-2 fetch loop signals failure after exactly retries
attempts when every attempt below retries fails. -/
theorem fetchV2Loop_exhaust (oracle : Nat → Option Snapshot) (retries : Nat)
    (hfail : ∀ j, j < retries → oracle j = none) :
    ∀ (fuel attempt : Nat), attempt + fuel = retries →
      fetchV2Loop oracle retries fuel attempt = (none, retries) := by
  intro fuel
  induction fuel with
  | zero =>
    intro attempt hinv
    unfold fetchV2Loop
    rw [show attempt = retries from by omega]
  | succ fuel ih =>
    intro attempt hinv
    unfold fetchV2Loop
    rw [hfail attempt (by omega)]
    by_cases ha : attempt = retries - 1
    · rw [if_pos ha]
      rw [show attempt + 1 = retries from by omega]
    · rw [if_neg ha]
      exact ih (attempt + 1) (by omega)

/-- C9: for every URL whose fetch fails after the full retry budget, the
detector returns the error result object at once, classified as the
Error outcome, and hands back the input filesystem unchanged.  The
equation holds for every filesystem, injected faults included, so the
outcome depends on no stored baseline: the store is neither read nor
written. -/
theorem c9_fetch_failure_frame (fs : FS) (url : String) :
    checkIfNewOrUpdated none fs url =
      Except.ok ({ updated := false, isNew := false, error := true }, fs)
    ∧ classify { updated := false, isNew := false, error := true } = Outcome.error :=
  ⟨rfl, rfl⟩

/-- C2: for a URL with a stored baseline equal to the fetched content the
detector returns the unchanged result, hands back the very same
filesystem (no baseline write), the outcome is Unchanged, and the
aggregator's classification puts an unchanged result in no bucket. -/
theorem c2_unchanged_frame (fs : FS) (url t c : String)
    (hrf : fs.readFault url = none) (hf : fs.files url = some c) :
    checkIfNewOrUpdated (some ⟨c, t⟩) fs url =
      Except.ok ({ updated := false, isNew := false }, fs)
    ∧ classify { updated := false, isNew := false } = Outcome.unchanged
    ∧ ∀ rep : Report, addToBuckets url { updated := false, isNew := false } rep = rep := by
  refine ⟨?_, rfl, fun rep => rfl⟩
  rw [checkIfNewOrUpdated_found ⟨c, t⟩ (readBaseline_found hrf hf)]
  rw [if_neg (by simp)]

/-- Witness for C2 at a concrete store holding hello for URL u. -/
theorem c2_unchanged_frame_witness :
    checkIfNewOrUpdated (some ⟨"hello", "T"⟩)
        ⟨fun u => if u = "u" then some "hello" else none, fun _ => none, fun _ => none⟩ "u" =
      Except.ok ({ updated := false, isNew := false },
        ⟨fun u => if u = "u" then some "hello" else none, fun _ => none, fun _ => none⟩)
    ∧ classify { updated := false, isNew := false } = Outcome.unchanged
    ∧ ∀ rep : Report, addToBuckets "u" { updated := false, isNew := false } rep = rep :=
  c2_unchanged_frame _ "u" "T" "hello" rfl rfl

/-- C1 counterexample: a URL with no baseline record whose fetch succeeds
with empty content.  The detector classifies it as New, but writes no
baseline (the store still has no record for the URL afterwards) and
attaches no title, against the claim that the fetched content is always
persisted as the new baseline. -/
theorem c1_counterexample :
    checkIfNewOrUpdated (some ⟨"", "T"⟩) fsEmpty "u" =
      Except.ok ({ updated := false, isNew := true }, fsEmpty)
    ∧ classify { updated := false, isNew := true } = Outcome.new none
    ∧ fsEmpty.files "u" = none :=
  ⟨rfl, rfl, rfl⟩

/-- C1 (amended): for every URL with no baseline record whose fetch
succeeds, the detector returns a New outcome and never an Updated one;
when the fetched content is non-empty (and the write does not fault) the
content is persisted as the new baseline with the fetched title attached,
but when the fetched content is the empty string no baseline is written
and no title is attached. -/
theorem c1_new_url_amended (fs : FS) (url : String) (snap : Snapshot)
    (hrf : fs.readFault url = none) (hnf : fs.files url = none)
    (hwf : fs.writeFault url = none) :
    ∃ r fs2, checkIfNewOrUpdated (some snap) fs url = Except.ok (r, fs2)
      ∧ r.isNew = true ∧ r.error = false
      ∧ classify r = Outcome.new r.title
      ∧ (∀ t c, classify r ≠ Outcome.updated t c)
      ∧ (snap.content ≠ "" →
          fs2.files url = some snap.content ∧ r.title = some snap.title
          ∧ r.changes = some ((diffLines "" snap.content).filter
              (fun c => c.added || c.removed)))
      ∧ (snap.content = "" → fs2 = fs ∧ r.title = none) := by
  rw [checkIfNewOrUpdated_enoent snap (readBaseline_enoent hrf hnf)]
  by_cases hne : snap.content ≠ ""
  · rw [if_pos hne, writeBaseline_ok _ hwf]
    refine ⟨_, _, rfl, rfl, rfl, rfl, ?_, ?_, ?_⟩
    · intro t c h
      simp [classify] at h
    · intro _
      exact ⟨by simp, rfl, rfl⟩
    · intro h
      exact absurd h hne
  · rw [if_neg hne]
    push_neg at hne
    refine ⟨_, _, rfl, rfl, rfl, rfl, ?_, ?_, ?_⟩
    · intro t c h
      simp [classify] at h
    · intro h
      exact absurd hne h
    · intro _
      exact ⟨rfl, rfl⟩

/-- Witness for the amended C1 on an empty store and non-empty content. -/
theorem c1_new_url_amended_witness :
    ∃ r fs2, checkIfNewOrUpdated (some ⟨"hello", "T"⟩) fsEmpty "u" = Except.ok (r, fs2)
      ∧ r.isNew = true ∧ r.error = false
      ∧ classify r = Outcome.new r.title
      ∧ (∀ t c, classify r ≠ Outcome.updated t c)
      ∧ ((⟨"hello", "T"⟩ : Snapshot).content ≠ "" →
          fs2.files "u" = some "hello" ∧ r.title = some "T"
          ∧ r.changes = some ((diffLines "" "hello").filter
              (fun c => c.added || c.removed)))
      ∧ ((⟨"hello", "T"⟩ : Snapshot).content = "" → fs2 = fsEmpty ∧ r.title = none) :=
  c1_new_url_amended fsEmpty "u" ⟨"hello", "T"⟩ rfl rfl rfl

/-- C6 counterexample: a never-seen URL whose page content is the empty
string.  Two successive detections both classify the URL as New — the
second is not Unchanged, because the first call wrote no baseline. -/
theorem c6_counterexample :
    (checkIfNewOrUpdated (some ⟨"", "T"⟩) fsEmpty "u").bind
      (fun p => (checkIfNewOrUpdated (some ⟨"", "T"⟩) p.2 "u").map
        (fun q => (classify p.1, classify q.1))) =
      Except.ok (Outcome.new none, Outcome.new none)
    ∧ Outcome.new none ≠ Outcome.unchanged :=
  ⟨rfl, by simp⟩

/-- C6 (amended): calling the detector twice in a row with the same fetch
result yields New (or Unchanged) then Unchanged, provided the URL either
has no baseline and non-empty fetched content, or already stores a
baseline equal to the fetched content; the first call establishes the
baseline the second compares against. -/
theorem c6_idempotence_amended (fs : FS) (url : String) (snap : Snapshot)
    (hrf : fs.readFault url = none) (hwf : fs.writeFault url = none)
    (hcase : (fs.files url = none ∧ snap.content ≠ "") ∨ fs.files url = some snap.content) :
    ∃ r1 fs1 r2 fs2,
      checkIfNewOrUpdated (some snap) fs url = Except.ok (r1, fs1)
      ∧ (classify r1 = Outcome.new (some snap.title) ∨ classify r1 = Outcome.unchanged)
      ∧ checkIfNewOrUpdated (some snap) fs1 url = Except.ok (r2, fs2)
      ∧ classify r2 = Outcome.unchanged := by
  rcases hcase with ⟨hnf, hne⟩ | hsome
  · refine ⟨{ updated := true, isNew := true, title := some snap.title,
               changes := some ((diffLines "" snap.content).filter
                 (fun c => c.added || c.removed)) },
            { fs with files := fun u => if u = url then some snap.content else fs.files u },
            { updated := false, isNew := false },
            { fs with files := fun u => if u = url then some snap.content else fs.files u },
            ?_, Or.inl rfl, ?_, rfl⟩
    · rw [checkIfNewOrUpdated_enoent snap (readBaseline_enoent hrf hnf), if_pos hne,
        writeBaseline_ok _ hwf]
    · have hr1 : (({ fs with files := fun u => if u = url then some snap.content else fs.files u }) : FS).readFault url = none := hrf
      have hf1 : (({ fs with files := fun u => if u = url then some snap.content else fs.files u }) : FS).files url = some snap.content := by simp
      rw [checkIfNewOrUpdated_found snap (readBaseline_found hr1 hf1)]
      rw [if_neg (by simp)]
  · refine ⟨{ updated := false, isNew := false }, fs,
            { updated := false, isNew := false }, fs, ?_, Or.inr rfl, ?_, rfl⟩
    · rw [checkIfNewOrUpdated_found snap (readBaseline_found hrf hsome)]
      rw [if_neg (by simp)]
    · rw [checkIfNewOrUpdated_found snap (readBaseline_found hrf hsome)]
      rw [if_neg (by simp)]

/-- Witness for the amended C6 on an empty store and non-empty content. -/
theorem c6_idempotence_amended_witness :
    ∃ r1 fs1 r2 fs2,
      checkIfNewOrUpdated (some ⟨"hello", "T"⟩) fsEmpty "u" = Except.ok (r1, fs1)
      ∧ (classify r1 = Outcome.new (some "T") ∨ classify r1 = Outcome.unchanged)
      ∧ checkIfNewOrUpdated (some ⟨"hello", "T"⟩) fs1 "u" = Except.ok (r2, fs2)
      ∧ classify r2 = Outcome.unchanged :=
  c6_idempotence_amended fsEmpty "u" ⟨"hello", "T"⟩ rfl rfl (Or.inl ⟨rfl, by simp⟩)

/-- C3: for a URL with a stored baseline that differs from the fetched
content, the detector computes the line diff of (old baseline, new
content), keeps exactly the hunks that are added or removed (every
returned hunk carries one of the two flags), overwrites the baseline with
the new content, and the result is classified as Updated with the fetched
title and those hunks. -/
theorem c3_updated_spec (fs : FS) (url oldC : String) (snap : Snapshot)
    (hrf : fs.readFault url = none) (hf : fs.files url = some oldC)
    (hwf : fs.writeFault url = none) (hne : snap.content ≠ oldC) :
    ∃ r fs2, checkIfNewOrUpdated (some snap) fs url = Except.ok (r, fs2)
      ∧ r.updated = true ∧ r.isNew = false ∧ r.error = false
      ∧ r.title = some snap.title
      ∧ r.changes = some ((diffLines oldC snap.content).filter
          (fun c => c.added || c.removed))
      ∧ fs2.files url = some snap.content
      ∧ classify r = Outcome.updated (some snap.title) r.changes
      ∧ ∀ ch ∈ (diffLines oldC snap.content).filter (fun c => c.added || c.removed),
          ch.added = true ∨ ch.removed = true := by
  rw [checkIfNewOrUpdated_found snap (readBaseline_found hrf hf), if_pos hne,
    writeBaseline_ok _ hwf]
  refine ⟨_, _, rfl, rfl, rfl, rfl, rfl, rfl, by simp, rfl, ?_⟩
  intro ch hch
  simpa using List.of_mem_filter hch

/-- Witness for C3 on the spec scenario: baseline Hello-World, fetched
content Hello-World-Foo. -/
theorem c3_updated_spec_witness :
    ∃ r fs2, checkIfNewOrUpdated (some ⟨"Hello\nWorld\nFoo", "T"⟩)
        ⟨fun u => if u = "u" then some "Hello\nWorld" else none,
         fun _ => none, fun _ => none⟩ "u" = Except.ok (r, fs2)
      ∧ r.updated = true ∧ r.isNew = false ∧ r.error = false
      ∧ r.title = some "T"
      ∧ r.changes = some ((diffLines "Hello\nWorld" "Hello\nWorld\nFoo").filter
          (fun c => c.added || c.removed))
      ∧ fs2.files "u" = some "Hello\nWorld\nFoo"
      ∧ classify r = Outcome.updated (some "T") r.changes
      ∧ ∀ ch ∈ (diffLines "Hello\nWorld" "Hello\nWorld\nFoo").filter
          (fun c => c.added || c.removed),
          ch.added = true ∨ ch.removed = true :=
  c3_updated_spec _ "u" "Hello\nWorld" ⟨"Hello\nWorld\nFoo", "T"⟩ rfl rfl rfl (by decide)

/-- C4 counterexample: the revision-2 fetcher configured with the bound 2
makes only two attempts — a success available on the third attempt (index
2, within maxRetries + 1 = 3 tries as the claim counts) is never seen and
failure is returned instead. -/
theorem c4_counterexample :
    (fetchPageContentV2 (fun n => if n < 2 then none else some ⟨"c", "t"⟩) 2).1 = none
    ∧ (fun n => if n < 2 then none else some (⟨"c", "t"⟩ : Snapshot)) 2 = some ⟨"c", "t"⟩
    ∧ (fun n => if n < 2 then none else some (⟨"c", "t"⟩ : Snapshot)) 0 = none
    ∧ (fun n => if n < 2 then none else some (⟨"c", "t"⟩ : Snapshot)) 1 = none :=
  ⟨rfl, rfl, rfl, rfl⟩

/-- C4 (amended): the revision-1 fetcher satisfies the claim with its
retries parameter as maxRetries — at most maxRetries + 1 attempts, the
first success returned with no further attempt, failure exactly once
after all maxRetries + 1 attempts failed.  The revision-2 fetcher treats
its retries parameter as the total attempt budget instead: at most
retries attempts, first success below index retries returned, failure
after exactly retries failed attempts — one attempt fewer than the claim
states. -/
theorem c4_retry_bound_amended (oracle : Nat → Option Snapshot) (retries : Nat) :
    ((fetchPageContentV1 oracle retries 0).2 ≤ retries + 1)
    ∧ (∀ k s, k ≤ retries → oracle k = some s → (∀ j, j < k → oracle j = none) →
        fetchPageContentV1 oracle retries 0 = (some s, k + 1))
    ∧ ((∀ j, j ≤ retries → oracle j = none) →
        fetchPageContentV1 oracle retries 0 = (none, retries + 1))
    ∧ ((fetchPageContentV2 oracle retries).2 ≤ retries)
    ∧ (∀ k s, k < retries → oracle k = some s → (∀ j, j < k → oracle j = none) →
        fetchPageContentV2 oracle retries = (some s, k + 1))
    ∧ ((∀ j, j < retries → oracle j = none) →
        fetchPageContentV2 oracle retries = (none, retries)) := by
  refine ⟨fetchPageContentV1_attempts_le oracle retries 0, ?_, ?_, ?_, ?_, ?_⟩
  · intro k s hk hs hf
    apply fetchPageContentV1_success oracle k retries 0 s hk
    · simpa using hs
    · intro j hj
      simpa using hf j hj
  · intro h
    apply fetchPageContentV1_exhaust
    intro j hj
    simpa using h j hj
  · exact fetchV2Loop_attempts_le oracle retries retries 0 (by omega)
  · intro k s hk hs hf
    exact fetchV2Loop_success oracle retries k s hk hs hf retries 0 (by omega) (by omega)
  · intro h
    exact fetchV2Loop_exhaust oracle retries h retries 0 (by omega)

/-- Witness for the amended C4: first success on the third attempt is
returned by revision 1 with bound 2 and by revision 2 with budget 3;
all-failing oracles exhaust exactly the respective budgets. -/
theorem c4_retry_bound_amended_witness :
    fetchPageContentV1 (fun n => if n = 2 then some ⟨"c", "t"⟩ else none) 2 0 =
      (some ⟨"c", "t"⟩, 3)
    ∧ fetchPageContentV1 (fun _ => none) 2 0 = (none, 3)
    ∧ fetchPageContentV2 (fun n => if n = 2 then some ⟨"c", "t"⟩ else none) 3 =
      (some ⟨"c", "t"⟩, 3)
    ∧ fetchPageContentV2 (fun _ => none) 3 = (none, 3) := by
  refine ⟨?_, ?_, ?_, ?_⟩
  · exact (c4_retry_bound_amended _ 2).2.1 2 ⟨"c", "t"⟩ (by omega) rfl
      (fun j hj => by rw [if_neg (by omega)])
  · exact (c4_retry_bound_amended _ 2).2.2.1 (fun j _ => rfl)
  · exact (c4_retry_bound_amended _ 3).2.2.2.2.1 2 ⟨"c", "t"⟩ (by omega) rfl
      (fun j hj => by rw [if_neg (by omega)])
  · exact (c4_retry_bound_amended _ 3).2.2.2.2.2 (fun j _ => rfl)

/-- C5 counterexample: two URLs where the first suffers a storage write
failure while being updated and the second is genuinely new.  The
revision-1 aggregator (Promise.all) rejects the whole run — no report is
handed to the notifier and the second URL's New outcome is lost — while
the revision-2 aggregator (Promise.allSettled) still reports the second
URL. -/
theorem c5_counterexample :
    checkForUpdatesV1 c5Fetch c5FS ["a", "b"] = Except.error "EIO"
    ∧ (checkForUpdatesV2 c5Fetch c5FS ["a", "b"]).1.newUrls = [("b", some "S")] :=
  ⟨rfl, rfl⟩

/-- C5 (amended): fetch failures are always confined — the errors bucket
of a revision-2 run is exactly the fetch-failing URLs in input order, and
when no URL carries a storage fault the revision-1 run returns the same
report.  A throwing detection is confined only by the revision-2
aggregator, where the URL is dropped and the rest of the run proceeds
unchanged; under revision 1 a storage failure escapes the aggregator and
aborts the reporting. -/
theorem c5_partial_success_amended (fetch : String → Option Snapshot) (fs : FS)
    (urls : List String) :
    (checkForUpdatesV2 fetch fs urls).1.errors = urls.filter (fun u => (fetch u).isNone)
    ∧ ((∀ u ∈ urls, fs.readFault u = none ∧ fs.writeFault u = none) →
        checkForUpdatesV1 fetch fs urls = Except.ok (checkForUpdatesV2 fetch fs urls))
    ∧ (∀ url rest e, checkIfNewOrUpdated (fetch url) fs url = Except.error e →
        checkForUpdatesV2 fetch fs (url :: rest) = checkForUpdatesV2 fetch fs rest) := by
  refine ⟨?_, ?_, ?_⟩
  · have h := runV2Aux_errors fetch urls fs emptyReport
    simpa [checkForUpdatesV2, emptyReport] using h
  · intro h
    exact runAux_agree fetch urls fs emptyReport h
  · intro url rest e hd
    unfold checkForUpdatesV2
    exact runV2Aux_cons_error rest emptyReport hd

/-- Witness for the amended C5: a concrete fetch-failing URL lands in the
errors bucket, a fault-free run agrees across the two revisions, and a
URL with an injected read fault is dropped without affecting the rest. -/
theorem c5_partial_success_amended_witness :
    (checkForUpdatesV2 c5WFetch fsEmpty ["bad", "ok"]).1.errors = ["bad"]
    ∧ checkForUpdatesV1 c5WFetch fsEmpty ["bad", "ok"] =
        Except.ok (checkForUpdatesV2 c5WFetch fsEmpty ["bad", "ok"])
    ∧ checkForUpdatesV2 c5WFetch c5RFS ["r", "ok"] = checkForUpdatesV2 c5WFetch c5RFS ["ok"] := by
  refine ⟨?_, ?_, ?_⟩
  · exact ((c5_partial_success_amended c5WFetch fsEmpty ["bad", "ok"]).1).trans rfl
  · exact (c5_partial_success_amended c5WFetch fsEmpty ["bad", "ok"]).2.1
      (fun u _ => ⟨rfl, rfl⟩)
  · exact (c5_partial_success_amended c5WFetch c5RFS ["r", "ok"]).2.2 "r" ["ok"] "EIO" rfl

/-- C7: the spec-modelled DiffEngine — if old equals new the filtered
diff is empty; if old is empty every hunk is an addition and the hunk
values concatenate to the whole new text; if old differs from new the
filtered diff is non-empty and the diff reconstructs both sides exactly:
its non-added hunks concatenate to old (so the removed hunks are
precisely old's lines missing from the common part) and its non-removed
hunks concatenate to new (so the added hunks are precisely new's
differing lines). -/
theorem c7_diff_spec (oldStr newStr : String) :
    (oldStr = newStr → (diffLines oldStr newStr).filter (fun c => c.added || c.removed) = [])
    ∧ (oldStr = "" →
        (∀ c ∈ diffLines oldStr newStr, c.added = true ∧ c.removed = false)
        ∧ concatStr ((diffLines oldStr newStr).map (fun c => c.value)) = newStr)
    ∧ (oldStr ≠ newStr →
        (diffLines oldStr newStr).filter (fun c => c.added || c.removed) ≠ []
        ∧ oldText (diffLines oldStr newStr) = oldStr
        ∧ newText (diffLines oldStr newStr) = newStr) := by
  refine ⟨?_, ?_, ?_⟩
  · intro h
    subst h
    rw [List.filter_eq_nil_iff]
    intro c hc
    have hcc := diffLines_self_context oldStr c hc
    simp [hcc.1, hcc.2]
  · intro h
    subst h
    refine ⟨diffLines_empty_all_added newStr, ?_⟩
    rw [values_concat_of_no_removed _
      (fun c hc => (diffLines_empty_all_added newStr c hc).2)]
    exact diffLines_newText "" newStr
  · intro h
    refine ⟨?_, diffLines_oldText _ _, diffLines_newText _ _⟩
    intro hnil
    apply h
    have heq := filter_nil_text_eq _ hnil
    rw [diffLines_oldText, diffLines_newText] at heq
    exact heq

/-- Witness for C7 on concrete texts: equal inputs, empty old input, and
a genuine one-line change. -/
theorem c7_diff_spec_witness :
    (diffLines "a\nb" "a\nb").filter (fun c => c.added || c.removed) = []
    ∧ ((∀ c ∈ diffLines "" "x\ny", c.added = true ∧ c.removed = false)
        ∧ concatStr ((diffLines "" "x\ny").map (fun c => c.value)) = "x\ny")
    ∧ ((diffLines "a\nb" "a\nc").filter (fun c => c.added || c.removed) ≠ []
        ∧ oldText (diffLines "a\nb" "a\nc") = "a\nb"
        ∧ newText (diffLines "a\nb" "a\nc") = "a\nc") :=
  ⟨(c7_diff_spec "a\nb" "a\nb").1 rfl,
   (c7_diff_spec "" "x\ny").2.1 rfl,
   (c7_diff_spec "a\nb" "a\nc").2.2 (by decide)⟩

/-- C8: the display truncation returns strings of length at most 100
unchanged and otherwise the first 100 characters followed by the ellipsis
marker; it is applied inside the notification formatting (formatChange)
and never to the hunks stored in an Updated result, which are exactly the
raw filtered diff. -/
theorem c8_trim_spec (s : String) :
    (s.length ≤ 100 → trimString s 100 = s)
    ∧ (100 < s.length → trimString s 100 = s.take 100 ++ "...")
    ∧ (∀ c : Change, c.added = true → formatChange c = "+ " ++ trimString c.value 100)
    ∧ (∀ (fs : FS) (url oldC : String) (snap : Snapshot),
        fs.readFault url = none → fs.files url = some oldC →
        fs.writeFault url = none → snap.content ≠ oldC →
        ∃ r fs2, checkIfNewOrUpdated (some snap) fs url = Except.ok (r, fs2)
          ∧ r.changes = some ((diffLines oldC snap.content).filter
              (fun c => c.added || c.removed))) := by
  refine ⟨?_, ?_, ?_, ?_⟩
  · intro h
    unfold trimString
    rw [if_neg (by omega)]
  · intro h
    unfold trimString
    rw [if_pos (by omega)]
  · intro c hc
    unfold formatChange
    rw [hc]
    simp
  · intro fs url oldC snap h1 h2 h3 h4
    rw [checkIfNewOrUpdated_found snap (readBaseline_found h1 h2), if_pos h4,
      writeBaseline_ok _ h3]
    exact ⟨_, _, rfl, rfl⟩

/-- Witness for C8: a short string kept intact, a 101-character string
truncated with the ellipsis, the added-hunk display format, and raw hunks
stored by a concrete update. -/
theorem c8_trim_spec_witness :
    trimString "hi" 100 = "hi"
    ∧ trimString (String.mk (List.replicate 101 'a')) 100 =
        (String.mk (List.replicate 101 'a')).take 100 ++ "..."
    ∧ formatChange ⟨"v", true, false⟩ = "+ " ++ trimString "v" 100
    ∧ ∃ r fs2, checkIfNewOrUpdated (some ⟨"b", "T"⟩)
          ⟨fun u => if u = "w" then some "a" else none, fun _ => none, fun _ => none⟩ "w"
        = Except.ok (r, fs2)
        ∧ r.changes = some ((diffLines "a" "b").filter (fun c => c.added || c.removed)) :=
  ⟨(c8_trim_spec "hi").1 (by decide),
   (c8_trim_spec _).2.1 (by decide),
   (c8_trim_spec "x").2.2.1 ⟨"v", true, false⟩ rfl,
   (c8_trim_spec "x").2.2.2 _ "w" "a" ⟨"b", "T"⟩ rfl rfl rfl (by decide)⟩

/-- C10: a baseline read failing with a code other than ENOENT is
rethrown by the detector instead of being turned into an error result, so
the URL lands in no bucket: under revision 2 the run report is as if the
URL were absent, and under revision 1 the whole run rejects with that
error, emitting no report at all. -/
theorem c10_read_error_rethrow (fetch : String → Option Snapshot) (fs : FS)
    (url e : String) (snap : Snapshot) (rest : List String)
    (hf : fetch url = some snap) (hr : fs.readFault url = some e) :
    checkIfNewOrUpdated (fetch url) fs url = Except.error e
    ∧ (checkForUpdatesV2 fetch fs [url]).1 = emptyReport
    ∧ checkForUpdatesV2 fetch fs (url :: rest) = checkForUpdatesV2 fetch fs rest
    ∧ checkForUpdatesV1 fetch fs (url :: rest) = Except.error e := by
  have hd : checkIfNewOrUpdated (fetch url) fs url = Except.error e := by
    rw [hf]
    exact checkIfNewOrUpdated_ioError snap (readBaseline_ioError hr)
  refine ⟨hd, ?_, ?_, ?_⟩
  · unfold checkForUpdatesV2
    rw [runV2Aux_cons_error [] emptyReport hd]
    rfl
  · unfold checkForUpdatesV2
    exact runV2Aux_cons_error rest emptyReport hd
  · unfold checkForUpdatesV1
    exact runV1Aux_cons_error rest emptyReport hd

/-- Witness for C10 with a concrete EACCES-like read fault. -/
theorem c10_read_error_rethrow_witness :
    checkIfNewOrUpdated (c5WFetch "u") c10FS "u" = Except.error "EACCES"
    ∧ (checkForUpdatesV2 c5WFetch c10FS ["u"]).1 = emptyReport
    ∧ checkForUpdatesV2 c5WFetch c10FS ["u", "ok"] = checkForUpdatesV2 c5WFetch c10FS ["ok"]
    ∧ checkForUpdatesV1 c5WFetch c10FS ["u", "ok"] = Except.error "EACCES" :=
  c10_read_error_rethrow c5WFetch c10FS "u" "EACCES" ⟨"x", "T"⟩ ["ok"] rfl rfl

end UpdateNotifier
